import Mathlib

/-!
Verification development for the ingestion-and-query subsystem of a
bioacoustics metadata catalog (filesystem indexer, repository layer,
scoped database sessions and a chainable query builder).

The Lean definitions below are a shallow embedding of the Python sources:

* `ava/db/repository.py` — repository classes and the `QueryDSL` builder;
* `ava/db/session.py` — the scoped transactional session (`get_session`);
* `ava/data/indexer.py` — the `FilesystemIndexer` pipeline.

The entity record types themselves live in `ava/db/schema.py`, which is not
part of the sources at hand; those record types are modelled from the spec
(section 3, "DATA MODEL") and carry the attributes the spec lists.

Python floats (times, durations) are embedded as rationals, byte strings as
lists of naturals, and SQL result sets as Lean lists.  A SQLAlchemy session
is embedded as an explicit state: the flushed database image plus the staged
(added but unflushed) rows and a count of flushes performed.
-/

/-- Modelled from the spec: `ava/db/schema.py` is not among the sources.
Per spec section 3, a Recording has a synthetic integer identity, a unique
file path, a fixed-length hex checksum, a creation timestamp and optional
free-form metadata (here: the concrete mapping the indexer writes, a file
type tag and a syllable count). -/
structure Recording where
  id : Nat
  file_path : String
  checksum_sha256 : String
  created_at : ℚ
  meta_file_type : Option String
  meta_num_syllables : Option Nat
  deriving DecidableEq, Repr

/-- Modelled from the spec: a Syllable has a synthetic identity, an owning
recording reference, a source spectrogram path, start/end times in seconds
and optional free-form bounds metadata (here: the concrete mapping the
indexer writes, a batch index and an array shape). -/
structure Syllable where
  id : Nat
  recording_id : Nat
  spectrogram_path : String
  start_time : ℚ
  end_time : ℚ
  bounds_batch_index : Option Nat
  bounds_specs_shape : Option (List Nat)
  deriving DecidableEq, Repr

/-- Modelled from the spec: an Embedding has a synthetic identity, an owning
syllable reference, a model/version tag, a storage path and a dimensionality. -/
structure Embedding where
  id : Nat
  syllable_id : Nat
  model_version : String
  embedding_path : String
  dimensions : Nat
  deriving DecidableEq, Repr

/-- Modelled from the spec: an Annotation has a synthetic identity, an owning
syllable reference, an annotation type, a key, a value and a creation
timestamp. -/
structure Annotation where
  id : Nat
  syllable_id : Nat
  annotation_type : String
  key : String
  value : String
  created_at : ℚ
  deriving DecidableEq, Repr

/-- The flushed relational state: one list per entity table plus the
autoincrement counters the engine uses to assign identity keys. -/
structure DB where
  recordings : List Recording
  syllables : List Syllable
  embeddings : List Embedding
  annotations : List Annotation
  nextRecordingId : Nat
  nextSyllableId : Nat
  deriving DecidableEq, Repr

/-- Column values passed to `RecordingRepository.create` (the keyword
arguments of the call in `populate_database`). -/
structure RecordingSpec where
  file_path : String
  checksum_sha256 : String
  meta_file_type : Option String
  meta_num_syllables : Option Nat
  deriving DecidableEq, Repr

/-- Column values of one element of the `syllables_data` list passed to
`SyllableRepository.bulk_create` (the dict built in `populate_database`). -/
structure SyllableSpec where
  recording_id : Nat
  spectrogram_path : String
  start_time : ℚ
  end_time : ℚ
  bounds_batch_index : Option Nat
  bounds_specs_shape : Option (List Nat)
  deriving DecidableEq, Repr

/-- The ORM row a flush creates from a staged `RecordingSpec`, with the
engine-assigned identity key.  `created_at` is a column default the engine
fills in; the embedding fixes it to `0` (no claim inspects its value on a
freshly created row). -/
def Recording.ofSpec (i : Nat) (sp : RecordingSpec) : Recording :=
  { id := i
    file_path := sp.file_path
    checksum_sha256 := sp.checksum_sha256
    created_at := 0
    meta_file_type := sp.meta_file_type
    meta_num_syllables := sp.meta_num_syllables }

/-- The ORM row a flush creates from a staged `SyllableSpec`. -/
def Syllable.ofSpec (i : Nat) (sp : SyllableSpec) : Syllable :=
  { id := i
    recording_id := sp.recording_id
    spectrogram_path := sp.spectrogram_path
    start_time := sp.start_time
    end_time := sp.end_time
    bounds_batch_index := sp.bounds_batch_index
    bounds_specs_shape := sp.bounds_specs_shape }

/-- A SQLAlchemy session bound to one engine: the flushed database image,
the rows staged by `session.add` but not yet flushed, and how many times
`session.flush()` has run. -/
structure Sess where
  db : DB
  stagedRecs : List RecordingSpec
  stagedSylls : List SyllableSpec
  flushes : Nat
  deriving DecidableEq, Repr

/-- A fresh session over the committed database image (`SessionLocal()` in
`get_session`). -/
def Sess.init (db : DB) : Sess :=
  { db := db, stagedRecs := [], stagedSylls := [], flushes := 0 }

/-- `session.flush()`: sends the staged INSERTs to the engine, which assigns
consecutive identity keys in insertion order, and clears the staging area. -/
def Sess.flush (s : Sess) : Sess :=
  let newRecs := s.stagedRecs.enum.map
    (fun p => Recording.ofSpec (s.db.nextRecordingId + p.1) p.2)
  let newSyls := s.stagedSylls.enum.map
    (fun p => Syllable.ofSpec (s.db.nextSyllableId + p.1) p.2)
  { db :=
      { s.db with
        recordings := s.db.recordings ++ newRecs
        syllables := s.db.syllables ++ newSyls
        nextRecordingId := s.db.nextRecordingId + s.stagedRecs.length
        nextSyllableId := s.db.nextSyllableId + s.stagedSylls.length }
    stagedRecs := []
    stagedSylls := []
    flushes := s.flushes + 1 }

/-- `session.commit()`: a final flush of anything still staged, then the
transaction becomes durable (the caller of `get_session` publishes `db`). -/
def Sess.commit (s : Sess) : Sess := s.flush

/-- Insertion of one element into a sorted list, by a boolean comparison. -/
def insertSorted (le : α → α → Bool) (a : α) : List α → List α
  | [] => [a]
  | b :: bs => if le a b then a :: b :: bs else b :: insertSorted le a bs

/-- The embedding of SQL `ORDER BY`: a stable structural insertion sort
(definitionally evaluable, unlike well-founded merge sort). -/
def sortBy (le : α → α → Bool) : List α → List α
  | [] => []
  | a :: as => insertSorted le a (sortBy le as)

/-- SQL comparison key used all over the repository layer: order by
`start_time`, then by `id`. -/
def sylLE (s t : Syllable) : Bool :=
  decide (s.start_time < t.start_time ∨
    (s.start_time = t.start_time ∧ s.id ≤ t.id))

namespace RecordingRepository

/-- `RecordingRepository.get_by_path`: `SELECT ... WHERE file_path = p`,
`scalar_one_or_none` (at most one row exists under the path uniqueness
constraint; the embedding returns the first match). -/
def get_by_path (db : DB) (p : String) : Option Recording :=
  db.recordings.find? (fun r => r.file_path == p)

/-- `RecordingRepository.create`: builds the ORM object, `session.add`s it
and flushes, returning the object (which now carries its assigned id). -/
def create (s : Sess) (sp : RecordingSpec) : Sess × Recording :=
  let s1 : Sess := { s with stagedRecs := s.stagedRecs ++ [sp] }
  (s1.flush, Recording.ofSpec (s.db.nextRecordingId + s.stagedRecs.length) sp)

end RecordingRepository

namespace SyllableRepository

/-- `SyllableRepository.bulk_create`: one `session.add` per input dict, in
input order, then a single `session.flush()`; returns the list of created
ORM objects in input order. -/
def bulk_create (s : Sess) (specs : List SyllableSpec) : Sess × List Syllable :=
  let s1 : Sess := specs.foldl
    (fun acc sp => { acc with stagedSylls := acc.stagedSylls ++ [sp] }) s
  (s1.flush,
    specs.enum.map
      (fun p => Syllable.ofSpec (s.db.nextSyllableId + s.stagedSylls.length + p.1) p.2))

/-- The computed SQL expression `Syllable.end_time - Syllable.start_time`. -/
def duration_expr (s : Syllable) : ℚ := s.end_time - s.start_time

/-- `SyllableRepository.filter_by_duration`: `WHERE duration BETWEEN min AND
max` (SQL `BETWEEN` is inclusive on both ends) with `ORDER BY start_time,
id`.  Both bounds are required positional parameters in the source. -/
def filter_by_duration (db : DB) (min_duration max_duration : ℚ) : List Syllable :=
  sortBy sylLE (db.syllables.filter
    (fun s => decide (min_duration ≤ duration_expr s ∧
      duration_expr s ≤ max_duration)))

/-- Python call semantics for `filter_by_duration`, whose source signature
`def filter_by_duration(self, min_duration: float, max_duration: float)`
declares two parameters with no default: a call that supplies a different
number of positional arguments raises `TypeError` before the body runs. -/
def filter_by_duration_call (db : DB) (args : List ℚ) : Except String (List Syllable) :=
  match args with
  | [mn, mx] => .ok (filter_by_duration db mn mx)
  | _ => .error "TypeError: filter_by_duration() missing 1 required positional argument: max_duration"

end SyllableRepository

namespace QueryDSL

/-- One WHERE predicate accumulated by the builder (`self._query.where(...)`). -/
inductive Cond where
  | durBetween (mn mx : ℚ)
  | durGe (mn : ℚ)
  | annType (t : String)
  | annValue (v : String)
  | embModel (v : String)
  | recCreatedBetween (a b : ℚ)
  deriving DecidableEq, Repr

/-- Builder state: the base query over Syllable, the set of already-applied
joins (`self._joins`, one flag per target entity) and the accumulated
conjunctive predicates, in the order the chain added them. -/
structure State where
  joinAnnotation : Bool
  joinEmbedding : Bool
  joinRecording : Bool
  conds : List Cond
  deriving DecidableEq, Repr

/-- `QueryDSL.__init__`: base query `select(Syllable)`, no joins, no filters. -/
def init : State :=
  { joinAnnotation := false, joinEmbedding := false, joinRecording := false
    conds := [] }

/-- `QueryDSL.filter_by_duration`: with `max_duration` present adds
`duration BETWEEN min AND max`, with it absent (its default `None`) adds
`duration >= min`. -/
def filter_by_duration (q : State) (mn : ℚ) (mx : Option ℚ) : State :=
  match mx with
  | some m => { q with conds := q.conds ++ [.durBetween mn m] }
  | none => { q with conds := q.conds ++ [.durGe mn] }

/-- `QueryDSL.filter_by_label`: joins Annotation at most once, then filters
on annotation type and value. -/
def filter_by_label (q : State) (t v : String) : State :=
  { q with joinAnnotation := true
           conds := q.conds ++ [.annType t, .annValue v] }

/-- `QueryDSL.filter_by_model_tag`: joins Embedding at most once, then
filters on the model version. -/
def filter_by_model_tag (q : State) (v : String) : State :=
  { q with joinEmbedding := true, conds := q.conds ++ [.embModel v] }

/-- `QueryDSL.filter_by_date_range`: joins Recording at most once, then
filters on the recording creation timestamp (SQL `BETWEEN`, inclusive). -/
def filter_by_date_range (q : State) (a b : ℚ) : State :=
  { q with joinRecording := true, conds := q.conds ++ [.recCreatedBetween a b] }

/-- One row of the joined FROM clause: the Syllable entity plus, per joined
entity, the matching joined row (`none` when that entity is not joined). -/
structure Row where
  syl : Syllable
  ann : Option Annotation
  emb : Option Embedding
  rcd : Option Recording
  deriving DecidableEq, Repr

/-- Inner join of one syllable against Annotation (ON
`annotation.syllable_id = syllable.id`), or the single unjoined row. -/
def annChoices (db : DB) (joined : Bool) (s : Syllable) : List (Option Annotation) :=
  if joined then (db.annotations.filter (fun a => a.syllable_id == s.id)).map some
  else [none]

/-- Inner join of one syllable against Embedding (ON
`embedding.syllable_id = syllable.id`), or the single unjoined row. -/
def embChoices (db : DB) (joined : Bool) (s : Syllable) : List (Option Embedding) :=
  if joined then (db.embeddings.filter (fun e => e.syllable_id == s.id)).map some
  else [none]

/-- Inner join of one syllable against Recording (ON
`syllable.recording_id = recording.id`), or the single unjoined row. -/
def recChoices (db : DB) (joined : Bool) (s : Syllable) : List (Option Recording) :=
  if joined then (db.recordings.filter (fun r => r.id == s.recording_id)).map some
  else [none]

/-- All joined rows contributed by one syllable. -/
def rowsFor (db : DB) (q : State) (s : Syllable) : List Row :=
  (annChoices db q.joinAnnotation s).flatMap (fun a =>
    (embChoices db q.joinEmbedding s).flatMap (fun e =>
      (recChoices db q.joinRecording s).map (fun r =>
        { syl := s, ann := a, emb := e, rcd := r })))

/-- The joined FROM clause of the built query. -/
def genRows (db : DB) (q : State) : List Row :=
  db.syllables.flatMap (rowsFor db q)

/-- Evaluation of one WHERE predicate on one joined row. -/
def evalCond (r : Row) : Cond → Bool
  | .durBetween mn mx =>
      decide (mn ≤ SyllableRepository.duration_expr r.syl ∧
        SyllableRepository.duration_expr r.syl ≤ mx)
  | .durGe mn => decide (mn ≤ SyllableRepository.duration_expr r.syl)
  | .annType t => match r.ann with | some a => a.annotation_type == t | none => false
  | .annValue v => match r.ann with | some a => a.value == v | none => false
  | .embModel v => match r.emb with | some e => e.model_version == v | none => false
  | .recCreatedBetween a b =>
      match r.rcd with
      | some rc => decide (a ≤ rc.created_at ∧ rc.created_at ≤ b)
      | none => false

/-- The Syllable projection of the joined rows that satisfy every chained
predicate, in FROM-clause order (before the final ORDER BY). -/
def matchingSyllables (db : DB) (q : State) : List Syllable :=
  ((genRows db q).filter (fun r => q.conds.all (evalCond r))).map Row.syl

/-- `QueryDSL.execute`: applies the final `ORDER BY start_time, id` to the
built query and returns the Syllable entities. -/
def execute (db : DB) (q : State) : List Syllable :=
  sortBy sylLE (matchingSyllables db q)

/-- One call of the chainable filter interface, for quantifying over
arbitrary chains. -/
inductive FilterCall where
  | duration (mn : ℚ) (mx : Option ℚ)
  | label (t v : String)
  | modelTag (v : String)
  | dateRange (a b : ℚ)
  deriving DecidableEq, Repr

/-- Dispatch of one chained call on the builder state. -/
def applyCall (q : State) : FilterCall → State
  | .duration mn mx => filter_by_duration q mn mx
  | .label t v => filter_by_label q t v
  | .modelTag v => filter_by_model_tag q v
  | .dateRange a b => filter_by_date_range q a b

/-- A whole chain `QueryDSL(session).f1(...).f2(...)...`, applied in order. -/
def applyCalls (calls : List FilterCall) : State :=
  calls.foldl applyCall init

end QueryDSL

/-! SHA-256, the checksum algorithm `compute_checksums` configures
(`hashlib.sha256`).  Bytes are naturals below 256, words are naturals kept
below 2^32 by explicit reduction. -/

/-- Reduction to a 32-bit word. -/
def w32 (n : Nat) : Nat := n % 4294967296

/-- 32-bit right rotation (input assumed below 2^32). -/
def rotr32 (n x : Nat) : Nat := w32 ((x >>> n) ||| (x <<< (32 - n)))

/-- 32-bit bitwise complement. -/
def not32 (x : Nat) : Nat := Nat.xor x 4294967295

/-- SHA-256 choice function. -/
def sha256ch (x y z : Nat) : Nat := Nat.xor (x &&& y) (not32 x &&& z)

/-- SHA-256 majority function. -/
def sha256maj (x y z : Nat) : Nat := Nat.xor (Nat.xor (x &&& y) (x &&& z)) (y &&& z)

/-- SHA-256 big sigma 0. -/
def bsig0 (x : Nat) : Nat := Nat.xor (Nat.xor (rotr32 2 x) (rotr32 13 x)) (rotr32 22 x)

/-- SHA-256 big sigma 1. -/
def bsig1 (x : Nat) : Nat := Nat.xor (Nat.xor (rotr32 6 x) (rotr32 11 x)) (rotr32 25 x)

/-- SHA-256 small sigma 0. -/
def ssig0 (x : Nat) : Nat := Nat.xor (Nat.xor (rotr32 7 x) (rotr32 18 x)) (x >>> 3)

/-- SHA-256 small sigma 1. -/
def ssig1 (x : Nat) : Nat := Nat.xor (Nat.xor (rotr32 17 x) (rotr32 19 x)) (x >>> 10)

/-- The 64 SHA-256 round constants (FIPS 180-4 section 4.2.2, written in
decimal). -/
def sha256K : List Nat :=
  [1116352408, 1899447441, 3049323471, 3921009573, 961987163,
   1508970993, 2453635748, 2870763221, 3624381080, 310598401,
   607225278, 1426881987, 1925078388, 2162078206, 2614888103,
   3248222580, 3835390401, 4022224774, 264347078, 604807628,
   770255983, 1249150122, 1555081692, 1996064986, 2554220882,
   2821834349, 2952996808, 3210313671, 3336571891, 3584528711,
   113926993, 338241895, 666307205, 773529912, 1294757372,
   1396182291, 1695183700, 1986661051, 2177026350, 2456956037,
   2730485921, 2820302411, 3259730800, 3345764771, 3516065817,
   3600352804, 4094571909, 275423344, 430227734, 506948616,
   659060556, 883997877, 958139571, 1322822218, 1537002063,
   1747873779, 1955562222, 2024104815, 2227730452, 2361852424,
   2428436474, 2756734187, 3204031479, 3329325298]

/-- The eight 32-bit words of SHA-256 working state. -/
structure Hash8 where
  a : Nat
  b : Nat
  c : Nat
  d : Nat
  e : Nat
  f : Nat
  g : Nat
  h : Nat
  deriving DecidableEq, Repr

/-- SHA-256 initial hash value. -/
def sha256H0 : Hash8 :=
  { a := 1779033703, b := 3144134277, c := 1013904242, d := 2773480762
    e := 1359893119, f := 2600822924, g := 528734635, h := 1541459225 }

/-- Big-endian bytes of a 64-bit length field. -/
def be64 (n : Nat) : List Nat :=
  (List.range 8).map (fun i => n / 2 ^ (8 * (7 - i)) % 256)

/-- SHA-256 message padding: a 0x80 byte, zeros up to 56 mod 64, then the
bit length as 8 big-endian bytes. -/
def sha256pad (msg : List Nat) : List Nat :=
  msg ++ [0x80] ++ List.replicate ((119 - msg.length % 64) % 64) 0
    ++ be64 (8 * msg.length)

/-- Split a list into consecutive chunks of `n` elements (the last chunk may
be shorter); for `n = 0` there are no chunks.  Models both the 64-byte block
structure of SHA-256 and the 8192-byte reads of the checksum loop. -/
def chunksOf (n : Nat) (l : List α) : List (List α) :=
  if h : l.isEmpty ∨ n = 0 then []
  else l.take n :: chunksOf n (l.drop n)
  termination_by l.length
  decreasing_by
    simp only [not_or, List.isEmpty_iff] at h
    simp only [List.length_drop]
    rcases l with _ | ⟨x, xs⟩
    · exact absurd rfl h.1
    · simp only [List.length_cons]
      omega

/-- One big-endian 32-bit word from (up to) four bytes. -/
def be32 (bytes : List Nat) : Nat :=
  bytes.foldl (fun acc b => acc * 256 + b) 0

/-- The sixteen message words of one 64-byte block. -/
def blockWords (block : List Nat) : List Nat :=
  (chunksOf 4 block).map be32

/-- Message-schedule extension from 16 to 64 words. -/
def sha256schedule (w16 : List Nat) : List Nat :=
  (List.range 48).foldl
    (fun ws _ =>
      let t := ws.length
      ws ++ [w32 (ssig1 (ws.getD (t - 2) 0) + ws.getD (t - 7) 0 +
        ssig0 (ws.getD (t - 15) 0) + ws.getD (t - 16) 0)])
    w16

/-- One SHA-256 round on the working state, with round constant `kt` and
message word `wt`. -/
def compressStep (st : Hash8) (kt wt : Nat) : Hash8 :=
  let t1 := w32 (st.h + bsig1 st.e + sha256ch st.e st.f st.g + kt + wt)
  let t2 := w32 (bsig0 st.a + sha256maj st.a st.b st.c)
  { a := w32 (t1 + t2), b := st.a, c := st.b, d := st.c
    e := w32 (st.d + t1), f := st.e, g := st.f, h := st.g }

/-- SHA-256 compression of one 64-byte block. -/
def compressBlock (st0 : Hash8) (block : List Nat) : Hash8 :=
  let ws := sha256schedule (blockWords block)
  let st := (ws.zip sha256K).foldl (fun s p => compressStep s p.2 p.1) st0
  { a := w32 (st0.a + st.a), b := w32 (st0.b + st.b), c := w32 (st0.c + st.c)
    d := w32 (st0.d + st.d), e := w32 (st0.e + st.e), f := w32 (st0.f + st.f)
    g := w32 (st0.g + st.g), h := w32 (st0.h + st.h) }

/-- The SHA-256 state after absorbing a whole message. -/
def sha256state (msg : List Nat) : Hash8 :=
  (chunksOf 64 (sha256pad msg)).foldl compressBlock sha256H0

/-- The sixteen lowercase hex digits. -/
def hexChar (n : Nat) : Char :=
  "0123456789abcdef".toList.getD n 'x'

/-- Eight lowercase hex characters of one 32-bit word, most significant
digit first. -/
def toHex8 (w : Nat) : List Char :=
  (List.range 8).map (fun i => hexChar (w / 16 ^ (7 - i) % 16))

/-- `hexdigest()` of a SHA-256 state: 64 lowercase hex characters. -/
def Hash8.hexdigest (st : Hash8) : String :=
  String.mk (toHex8 st.a ++ toHex8 st.b ++ toHex8 st.c ++ toHex8 st.d ++
    toHex8 st.e ++ toHex8 st.f ++ toHex8 st.g ++ toHex8 st.h)

/-- `hashlib.sha256(msg).hexdigest()`. -/
def sha256hex (msg : List Nat) : String :=
  (sha256state msg).hexdigest

/-! The filesystem as the indexer sees it, and the `FilesystemIndexer`
methods of `ava/data/indexer.py`. -/

/-- The structural content of a spectrogram container as `h5py` exposes it:
the dataset names present and the data the indexer reads from the four
required datasets.  `none` at `FSEntry.h5` means opening the file as a
container fails (corrupt or not a container at all). -/
structure H5Data where
  datasets : List String
  specs_shape : List Nat
  specs_dtype : String
  onsets : List ℚ
  offsets : List ℚ
  audio_filenames : List String
  deriving DecidableEq, Repr

/-- One filesystem entry: its path, whether it is a regular file, its raw
bytes, and its parse as a container when it has one. -/
structure FSEntry where
  path : String
  is_file : Bool
  content : List Nat
  h5 : Option H5Data
  deriving DecidableEq, Repr

/-- A snapshot of the filesystem. -/
structure FS where
  entries : List FSEntry
  deriving DecidableEq, Repr

/-- The entry at a path, when the path exists. -/
def FS.find (fs : FS) (p : String) : Option FSEntry :=
  fs.entries.find? (fun e => e.path == p)

/-- `Path.exists()`. -/
def FS.pathExists (fs : FS) (p : String) : Bool :=
  (fs.find p).isSome

/-- `Path.is_file()`. -/
def FS.isFile (fs : FS) (p : String) : Bool :=
  match fs.find p with
  | some e => e.is_file
  | none => false

/-- The raw bytes behind a path (empty for a missing path; callers check
existence first). -/
def FS.content (fs : FS) (p : String) : List Nat :=
  match fs.find p with
  | some e => e.content
  | none => []

/-- Split a character list on a separator (structurally recursive embedding
of `str.split`). -/
def splitOnChar (sep : Char) (cs : List Char) : List (List Char) :=
  cs.foldr
    (fun c acc =>
      match acc with
      | [] => [[c]]
      | g :: gs => if c == sep then [] :: g :: gs else (c :: g) :: gs)
    [[]]

/-- Lowercasing, character by character (embedding of `str.lower` for the
ASCII extensions compared here). -/
def toLowerStr (s : String) : String :=
  String.mk (s.toList.map Char.toLower)

/-- `pathlib.Path.suffix`: the final dot-segment of the last path component,
dot included; empty when the last component has no dot strictly inside it. -/
def pathSuffix (p : String) : String :=
  let name := (splitOnChar '/' p.toList).getLastD []
  match (name.enum.filter (fun q => q.2 == '.')).getLast? with
  | some q => if 0 < q.1 ∧ q.1 + 1 < name.length then String.mk (name.drop q.1) else ""
  | none => ""

/-- The two accepted container extensions. -/
def accepted_suffixes : List String := [".h5", ".hdf5"]

/-- `FilesystemIndexer.scan_files` for the default configured glob
`**/*.h5`: every path under the base directory ending in `.h5` (directories
included, as `glob` returns them), then the source's own suffix filter
keeping `.h5` and `.hdf5`. -/
def scan_files (fs : FS) (base : String) : List String :=
  let discovered := (fs.entries.map (fun e => e.path)).filter
    (fun p => (base ++ "/").toList.isPrefixOf p.toList &&
      ".h5".toList.isSuffixOf p.toList)
  discovered.filter (fun p => pathSuffix p == ".h5" || pathSuffix p == ".hdf5")

/-- The structural metadata `extract_hdf5_metadata` returns (the wall-clock
`extraction_time` entry of the source dict is omitted from the embedding). -/
structure H5Meta where
  specs_shape : List Nat
  specs_dtype : String
  specs_ndim : Nat
  onsets : List ℚ
  offsets : List ℚ
  num_syllables : Nat
  deriving DecidableEq, Repr

/-- The four datasets `extract_hdf5_metadata` requires. -/
def required_keys : List String := ["specs", "onsets", "offsets", "audio_filenames"]

/-- `FilesystemIndexer.extract_hdf5_metadata`: existence and regular-file
check, case-sensitive extension check, then container parsing; a missing
dataset or an unreadable container is wrapped into one descriptive error. -/
def extract_hdf5_metadata (fs : FS) (p : String) : Except String H5Meta :=
  if ¬ (fs.pathExists p ∧ fs.isFile p) then
    .error ("HDF5 file not found or not a file: " ++ p)
  else if ¬ accepted_suffixes.contains (pathSuffix p) then
    .error ("Invalid file extension: " ++ pathSuffix p)
  else
    match (fs.find p).bind (fun e => e.h5) with
    | none => .error ("Failed to extract metadata from " ++ p ++ ": unreadable container")
    | some h =>
      let missing := required_keys.filter (fun k => ¬ h.datasets.contains k)
      if missing.isEmpty then
        .ok { specs_shape := h.specs_shape
              specs_dtype := h.specs_dtype
              specs_ndim := h.specs_shape.length
              onsets := h.onsets
              offsets := h.offsets
              num_syllables := h.onsets.length }
      else
        .error ("Failed to extract metadata from " ++ p ++ ": Missing required datasets")

/-- Python dict insertion: replaces the value of an existing key in place,
otherwise appends the new key at the end (insertion order kept). -/
def dictInsert (m : List (String × String)) (k v : String) : List (String × String) :=
  if m.any (fun kv => kv.1 == k) then
    m.map (fun kv => if kv.1 == k then (k, v) else kv)
  else m ++ [(k, v)]

/-- Python dict lookup `m[k]`, as an option (a missing key is a KeyError at
the call site). -/
def dictGet (m : List (String × String)) (k : String) : Option String :=
  (m.find? (fun kv => kv.1 == k)).map (fun kv => kv.2)

/-- The digest of one file's bytes as the checksum loop computes it: the
file is read in 8192-byte chunks, each fed to the running hash — which is
the hash of the concatenation of the chunks. -/
def checksum_stream (content : List Nat) : String :=
  sha256hex ((chunksOf 8192 content).foldl (fun acc c => acc ++ c) [])

/-- The loop of `FilesystemIndexer.compute_checksums`: a missing file is a
fatal error; a path that exists but is not a readable regular file fails
when opened and is wrapped as a checksum-computation error. -/
def compute_checksums_loop (fs : FS) :
    List String → List (String × String) → Except String (List (String × String))
  | [], acc => .ok acc
  | p :: rest, acc =>
    if ¬ fs.pathExists p then
      .error ("Cannot compute checksum - file not found: " ++ p)
    else if ¬ fs.isFile p then
      .error ("Checksum computation failed for " ++ p ++ ": not a regular file")
    else
      compute_checksums_loop fs rest (dictInsert acc p (checksum_stream (fs.content p)))

/-- `FilesystemIndexer.compute_checksums`. -/
def compute_checksums (fs : FS) (file_paths : List String) :
    Except String (List (String × String)) :=
  compute_checksums_loop fs file_paths []

/-- The diagnostic the validation loop body appends for one path: the
`if`/`elif`/`elif` chain reports the first failed check only — existence,
then regular-file, then (lowercased) extension — and nothing for a valid
path. -/
def path_diagnostic (fs : FS) (p : String) : Option String :=
  if ¬ fs.pathExists p then some ("File does not exist: " ++ p)
  else if ¬ fs.isFile p then some ("Path is not a file: " ++ p)
  else if ¬ accepted_suffixes.contains (toLowerStr (pathSuffix p)) then
    some ("Invalid file extension: " ++ p)
  else none

/-- The `validation_errors` list after the loop of
`FilesystemIndexer.validate_integrity`, in path order. -/
def validation_error_lines (fs : FS) (ps : List String) : List String :=
  ps.foldl
    (fun acc p =>
      match path_diagnostic fs p with
      | some line => acc ++ [line]
      | none => acc)
    []

/-- `FilesystemIndexer.validate_integrity`: collects every violation, then
either succeeds or raises the one combined error. -/
def validate_integrity (fs : FS) (ps : List String) : Except String Bool :=
  let lines := validation_error_lines fs ps
  if lines.isEmpty then .ok true
  else .error ("Integrity validation failed:\n" ++ String.intercalate "\n" lines)

/-! The scoped session of `ava/db/session.py` and the transactional
population and full-run methods of the indexer. -/

/-- What a run of `get_session` leaves behind: the durable database image,
whether the session was closed, and the propagated error if the unit of
work raised one. -/
structure SessionOutcome (E : Type) where
  committed : DB
  closed : Bool
  err : Option E
  deriving Repr

/-- `get_session`: opens a fresh session over the committed image, runs the
caller's unit of work, commits on normal completion, rolls back (discarding
the transaction) and re-raises the same error otherwise, and closes the
session on both paths (`finally`). -/
def get_session {E : Type} (db : DB) (work : Sess → Except E Sess) : SessionOutcome E :=
  match work (Sess.init db) with
  | .ok s => { committed := s.commit.db, closed := true, err := none }
  | .error e => { committed := db, closed := true, err := some e }

/-- The syllable dicts one file contributes to `syllables_batch`: one per
onset/offset pair, enumerated, referencing the resolved recording. -/
def mkSyllableSpecs (rid : Nat) (p : String) (md : H5Meta) : List SyllableSpec :=
  (md.onsets.zip md.offsets).enum.map
    (fun q =>
      { recording_id := rid
        spectrogram_path := p
        start_time := q.2.1
        end_time := q.2.2
        bounds_batch_index := some q.1
        bounds_specs_shape := some md.specs_shape })

/-- The body of the per-file loop of `populate_database`, threading the
session and the growing `syllables_batch`.  Any error inside one file's
processing (metadata extraction, or the checksum dict lookup) is wrapped
into the per-file population error.  A file whose path has no Recording yet
gets one created (carrying the checksum and basic metadata); otherwise the
existing row's identity is reused. -/
def populate_loop (fs : FS) (checksums : List (String × String)) :
    List String → Sess → List SyllableSpec → Except String (Sess × List SyllableSpec)
  | [], s, batch => .ok (s, batch)
  | p :: rest, s, batch =>
    match extract_hdf5_metadata fs p with
    | .error e => .error ("Database population failed for " ++ p ++ ": " ++ e)
    | .ok md =>
      match dictGet checksums p with
      | none => .error ("Database population failed for " ++ p ++ ": KeyError")
      | some ck =>
        match RecordingRepository.get_by_path s.db p with
        | none =>
          let created := RecordingRepository.create s
            { file_path := p
              checksum_sha256 := ck
              meta_file_type := some "hdf5_spectrogram"
              meta_num_syllables := some md.num_syllables }
          populate_loop fs checksums rest created.1
            (batch ++ mkSyllableSpecs created.2.id p md)
        | some r =>
          populate_loop fs checksums rest s (batch ++ mkSyllableSpecs r.id p md)

/-- The unit of work `populate_database` runs inside its session: the
per-file loop, then one bulk insert of the whole batch. -/
def populate_work (fs : FS) (files : List String) (checksums : List (String × String))
    (s : Sess) : Except String Sess :=
  match populate_loop fs checksums files s [] with
  | .error e => .error e
  | .ok r => .ok (SyllableRepository.bulk_create r.1 r.2).1

/-- `FilesystemIndexer.populate_database`: exactly one scoped session for
the whole batch. -/
def populate_database (fs : FS) (files : List String)
    (checksums : List (String × String)) (db : DB) : SessionOutcome String :=
  get_session db (populate_work fs files checksums)

/-- A value of the summary dict `run_full_indexing` returns. -/
inductive SVal where
  | str (s : String)
  | nat (n : Nat)
  | strList (l : List String)
  deriving DecidableEq, Repr

/-- The summary dict: keys in insertion order. -/
abbrev Summary := List (String × SVal)

/-- Summary lookup. -/
def Summary.get (m : Summary) (k : String) : Option SVal :=
  (List.find? (fun kv => kv.1 == k) m).map (fun kv => kv.2)

/-- The re-extraction sum `sum(len(self.extract_hdf5_metadata(f)['onsets'])
for f in discovered_files)` in the success summary. -/
def totalSyllables (fs : FS) : List String → Except String Nat
  | [] => .ok 0
  | p :: rest => do
    let md ← extract_hdf5_metadata fs p
    let t ← totalSyllables fs rest
    .ok (md.onsets.length + t)

/-- `FilesystemIndexer.run_full_indexing`: scan, then — on an empty
discovery set — an early zero-count success summary; otherwise validate,
checksum, populate and build the full summary.  Any stage error is wrapped
into the workflow failure.  The result carries the summary and the durable
database image after the run. -/
def run_full_indexing (fs : FS) (db : DB) (features_dir : String)
    (base_directory : Option String) : Except String (Summary × DB) :=
  let base := base_directory.getD features_dir
  let discovered := scan_files fs base
  if discovered.isEmpty then
    .ok ([("status", .str "completed"), ("indexed_files", .nat 0),
          ("errors", .strList [])], db)
  else
    match validate_integrity fs discovered with
    | .error e => .error ("Indexing workflow failed: " ++ e)
    | .ok _ =>
      match compute_checksums fs discovered with
      | .error e => .error ("Indexing workflow failed: " ++ e)
      | .ok cks =>
        let outcome := populate_database fs discovered cks db
        match outcome.err with
        | some e => .error ("Indexing workflow failed: " ++ e)
        | none =>
          match totalSyllables fs discovered with
          | .error e => .error ("Indexing workflow failed: " ++ e)
          | .ok total =>
            .ok ([("status", .str "completed"),
                  ("indexed_files", .nat discovered.length),
                  ("total_syllables", .nat total),
                  ("checksums_computed", .nat cks.length),
                  ("errors", .strList [])], outcome.committed)

/-! Concrete sample inputs used by counterexamples and witnesses, and the
spec-side predicates the theorems compare the code against. -/

/-- The column values of a Syllable row without its identity key (for
stating that `bulk_create` returns rows matching its input, in order). -/
def Syllable.toSpec (s : Syllable) : SyllableSpec :=
  { recording_id := s.recording_id
    spectrogram_path := s.spectrogram_path
    start_time := s.start_time
    end_time := s.end_time
    bounds_batch_index := s.bounds_batch_index
    bounds_specs_shape := s.bounds_specs_shape }

/-- Spec-side predicate: the path fails at least one of the three integrity
checks (existence, regular file, accepted extension after lowercasing). -/
def pathViolates (fs : FS) (p : String) : Bool :=
  !(fs.pathExists p) || !(fs.isFile p) ||
    !(accepted_suffixes.contains (toLowerStr (pathSuffix p)))

/-- A fresh database (autoincrement counters start at 1). -/
def dbEmpty : DB :=
  { recordings := [], syllables := [], embeddings := [], annotations := []
    nextRecordingId := 1, nextSyllableId := 1 }

/-- An empty filesystem. -/
def fsEmpty : FS := { entries := [] }

/-- A well-formed container with two segments. -/
def h5a : H5Data :=
  { datasets := ["specs", "onsets", "offsets", "audio_filenames"]
    specs_shape := [2, 3, 4], specs_dtype := "float32"
    onsets := [0, 1/2], offsets := [1/4, 3/4]
    audio_filenames := ["a.wav"] }

/-- A filesystem with one valid container file of two segments. -/
def fs1 : FS :=
  { entries := [{ path := "data/features/a.h5", is_file := true
                  content := [104, 105], h5 := some h5a }] }

/-- The summary a full run over `fs1` returns. -/
def fs1summary : Summary :=
  [("status", .str "completed"), ("indexed_files", .nat 1),
   ("total_syllables", .nat 2), ("checksums_computed", .nat 1),
   ("errors", .strList [])]

/-- The database a full run over `fs1` commits. -/
def fs1db : DB :=
  { recordings :=
      [{ id := 1, file_path := "data/features/a.h5"
         checksum_sha256 := checksum_stream [104, 105], created_at := 0
         meta_file_type := some "hdf5_spectrogram"
         meta_num_syllables := some 2 }]
    syllables :=
      [{ id := 1, recording_id := 1, spectrogram_path := "data/features/a.h5"
         start_time := 0, end_time := 1/4
         bounds_batch_index := some 0, bounds_specs_shape := some [2, 3, 4] },
       { id := 2, recording_id := 1, spectrogram_path := "data/features/a.h5"
         start_time := 1/2, end_time := 3/4
         bounds_batch_index := some 1, bounds_specs_shape := some [2, 3, 4] }]
    embeddings := [], annotations := []
    nextRecordingId := 2, nextSyllableId := 3 }

/-- A syllable of duration 1/5 (start 1.0, end 1.2), as in the spec's
boundary example. -/
def sylC2 : Syllable :=
  { id := 1, recording_id := 1, spectrogram_path := "a.h5"
    start_time := 1, end_time := 6/5
    bounds_batch_index := none, bounds_specs_shape := none }

/-- A database holding just `sylC2`. -/
def dbC2 : DB :=
  { recordings := [], syllables := [sylC2], embeddings := [], annotations := []
    nextRecordingId := 1, nextSyllableId := 2 }
/-! Theorems. -/

/-- C4: for every unit of work run under the scoped session, normal
completion commits the work's transaction, an error rolls back (the durable
image is unchanged) and the very same error is re-raised, and the session
is closed on every exit path. -/
theorem C4_get_session_contract (E : Type) (db : DB) (work : Sess → Except E Sess) :
    (get_session db work).closed = true ∧
    (∀ s, work (Sess.init db) = .ok s →
      (get_session db work).err = none ∧
      (get_session db work).committed = (Sess.commit s).db) ∧
    (∀ e, work (Sess.init db) = .error e →
      (get_session db work).err = some e ∧
      (get_session db work).committed = db) := by
  unfold get_session
  cases hw : work (Sess.init db) with
  | ok s =>
    refine ⟨rfl, ?_, ?_⟩
    · intro s' hs
      injection hs with h
      subst h
      exact ⟨rfl, rfl⟩
    · intro e he
      exact Except.noConfusion he
  | error e =>
    refine ⟨rfl, ?_, ?_⟩
    · intro s' hs
      exact Except.noConfusion hs
    · intro e' he
      injection he with h
      subst h
      exact ⟨rfl, rfl⟩

/-- Witness for C4 at a concrete erroring unit of work and a concrete
succeeding one. -/
theorem C4_get_session_contract_witness :
    ((@get_session String dbEmpty (fun _ => .error "boom")).err = some "boom" ∧
      (@get_session String dbEmpty (fun _ => .error "boom")).committed = dbEmpty) ∧
    ((@get_session String dbEmpty (fun s => .ok s)).err = none ∧
      (@get_session String dbEmpty (fun s => .ok s)).committed =
        (Sess.commit (Sess.init dbEmpty)).db) :=
  ⟨(C4_get_session_contract String dbEmpty (fun _ => .error "boom")).2.2 "boom" rfl,
   (C4_get_session_contract String dbEmpty (fun s => .ok s)).2.1 (Sess.init dbEmpty) rfl⟩

/-- C3: whenever `populate_database` propagates an error — in particular a
metadata-extraction failure for any file of the batch — the durable
database state after the call equals the state before it: no Recording and
no Syllable created during the call persists. -/
theorem C3_populate_rollback (fs : FS) (files : List String)
    (cks : List (String × String)) (db : DB) (e : String) :
    (populate_database fs files cks db).err = some e →
    (populate_database fs files cks db).committed = db := by
  unfold populate_database get_session
  cases hw : populate_work fs files cks (Sess.init db) with
  | ok s => intro he; exact Option.noConfusion he
  | error e' => intro he; rfl

/-- Witness for C3: a batch whose single file is missing from the
filesystem, so its metadata extraction fails. -/
theorem C3_populate_rollback_witness :
    (populate_database fsEmpty ["x.h5"] [] dbEmpty).err =
      some ("Database population failed for x.h5: HDF5 file not found or not a file: x.h5") ∧
    (populate_database fsEmpty ["x.h5"] [] dbEmpty).committed = dbEmpty :=
  ⟨by rfl,
   C3_populate_rollback fsEmpty ["x.h5"] [] dbEmpty
     "Database population failed for x.h5: HDF5 file not found or not a file: x.h5" (by rfl)⟩
/-- Staging a list of syllable dicts one by one only grows the
`stagedSylls` buffer of the session. -/
theorem stage_foldl_eq (specs : List SyllableSpec) (s : Sess) :
    specs.foldl (fun acc sp => { acc with stagedSylls := acc.stagedSylls ++ [sp] }) s =
      { s with stagedSylls := s.stagedSylls ++ specs } := by
  induction specs generalizing s with
  | nil => simp
  | cons x xs ih =>
    rw [List.foldl_cons, ih]
    simp

/-- Stripping the assigned ids from the rows a flush creates gives back the
staged column values. -/
theorem enum_ofSpec_toSpec (specs : List SyllableSpec) (n : Nat) :
    (specs.enum.map (fun p => Syllable.ofSpec (n + p.1) p.2)).map Syllable.toSpec
      = specs := by
  rw [List.map_map]
  have : (Syllable.toSpec ∘ fun p : Nat × SyllableSpec => Syllable.ofSpec (n + p.1) p.2)
      = Prod.snd := by
    funext p
    rfl
  rw [this, List.enum_map_snd]

/-- C9: `bulk_create` returns one created row per input dict, in input
order and with the input's column values; the rows it persists are exactly
the returned ones, appended to the table; it performs exactly one flush;
and the empty input succeeds with an empty result. -/
theorem C9_bulk_create (s : Sess) (specs : List SyllableSpec)
    (hclean : s.stagedSylls = []) :
    ((SyllableRepository.bulk_create s specs).2).map Syllable.toSpec = specs ∧
    (SyllableRepository.bulk_create s specs).2.length = specs.length ∧
    (SyllableRepository.bulk_create s specs).1.db.syllables =
      s.db.syllables ++ (SyllableRepository.bulk_create s specs).2 ∧
    (SyllableRepository.bulk_create s specs).1.flushes = s.flushes + 1 ∧
    (SyllableRepository.bulk_create s []).2 = [] := by
  unfold SyllableRepository.bulk_create
  rw [stage_foldl_eq]
  refine ⟨?_, ?_, ?_, ?_, rfl⟩
  · simpa using enum_ofSpec_toSpec specs (s.db.nextSyllableId + s.stagedSylls.length)
  · simp
  · simp [Sess.flush, hclean]
  · simp [Sess.flush]

/-- Witness for C9 on a fresh session and a one-element batch. -/
theorem C9_bulk_create_witness :
    ((SyllableRepository.bulk_create (Sess.init dbEmpty)
        [Syllable.toSpec sylC2]).2).map Syllable.toSpec = [Syllable.toSpec sylC2] ∧
    (SyllableRepository.bulk_create (Sess.init dbEmpty)
        [Syllable.toSpec sylC2]).2.length = 1 ∧
    (SyllableRepository.bulk_create (Sess.init dbEmpty)
        [Syllable.toSpec sylC2]).1.db.syllables =
      dbEmpty.syllables ++
        (SyllableRepository.bulk_create (Sess.init dbEmpty) [Syllable.toSpec sylC2]).2 ∧
    (SyllableRepository.bulk_create (Sess.init dbEmpty)
        [Syllable.toSpec sylC2]).1.flushes = 0 + 1 :=
  have h := C9_bulk_create (Sess.init dbEmpty) [Syllable.toSpec sylC2] rfl
  ⟨h.1, h.2.1, h.2.2.1, h.2.2.2.1⟩

/-- The validation loop collects exactly the per-path diagnostics, in path
order. -/
theorem validation_error_lines_eq_filterMap (fs : FS) (ps : List String) :
    validation_error_lines fs ps = ps.filterMap (path_diagnostic fs) := by
  suffices h : ∀ (acc : List String),
      ps.foldl
        (fun acc p => match path_diagnostic fs p with
          | some line => acc ++ [line]
          | none => acc) acc
        = acc ++ ps.filterMap (path_diagnostic fs) by
    simpa [validation_error_lines] using h []
  induction ps with
  | nil => intro acc; simp
  | cons p rest ih =>
    intro acc
    rw [List.foldl_cons, List.filterMap_cons]
    cases hd : path_diagnostic fs p with
    | none => simpa using ih acc
    | some line => simp [ih (acc ++ [line])]

/-- C10: the validation report holds at most one diagnostic per path, the
loop's `if`/`elif` chain choosing it by fixed priority — non-existence
first, then not-a-regular-file, then invalid extension — so a path that
fails several checks (such as a missing path with a bad extension)
contributes exactly one line. -/
theorem C10_validation_priority (fs : FS) (ps : List String) :
    validation_error_lines fs ps = ps.filterMap (path_diagnostic fs) ∧
    (∀ p, fs.pathExists p = false →
      path_diagnostic fs p = some ("File does not exist: " ++ p)) ∧
    (∀ p, fs.pathExists p = true → fs.isFile p = false →
      path_diagnostic fs p = some ("Path is not a file: " ++ p)) ∧
    (∀ p, fs.pathExists p = true → fs.isFile p = true →
      accepted_suffixes.contains (toLowerStr (pathSuffix p)) = false →
      path_diagnostic fs p = some ("Invalid file extension: " ++ p)) ∧
    (∀ p, fs.pathExists p = false →
      validation_error_lines fs [p] = ["File does not exist: " ++ p]) := by
  refine ⟨validation_error_lines_eq_filterMap fs ps, ?_, ?_, ?_, ?_⟩
  · intro p h1
    simp [path_diagnostic, h1]
  · intro p h1 h2
    simp [path_diagnostic, h1, h2]
  · intro p h1 h2 h3
    simp only [List.contains, List.elem_eq_mem, decide_eq_false_iff_not] at h3
    simp [path_diagnostic, h1, h2, h3]
  · intro p h1
    rw [validation_error_lines_eq_filterMap]
    simp [path_diagnostic, h1]

/-- Witness for C10 at a path that both does not exist and has a
non-accepted extension: one line, for non-existence. -/
theorem C10_validation_priority_witness :
    path_diagnostic fsEmpty "nope.txt" = some ("File does not exist: " ++ "nope.txt") ∧
    validation_error_lines fsEmpty ["nope.txt"] = ["File does not exist: " ++ "nope.txt"] :=
  ⟨(C10_validation_priority fsEmpty ["nope.txt"]).2.1 "nope.txt" rfl,
   (C10_validation_priority fsEmpty ["nope.txt"]).2.2.2.2 "nope.txt" rfl⟩

/-- C5: `validate_integrity` succeeds exactly when no input path violates
any of the three checks; otherwise it raises the single combined error
whose message joins the diagnostics of every offending path — it never
stops at the first offender. -/
theorem C5_validate_integrity_aggregation (fs : FS) (ps : List String) :
    (validate_integrity fs ps = .ok true ↔ ∀ p ∈ ps, pathViolates fs p = false) ∧
    (∀ p, pathViolates fs p = (path_diagnostic fs p).isSome) ∧
    ((∃ p ∈ ps, pathViolates fs p = true) →
      validate_integrity fs ps =
        .error ("Integrity validation failed:\n" ++
          String.intercalate "\n" (ps.filterMap (path_diagnostic fs)))) := by
  have hdiag : ∀ p, pathViolates fs p = (path_diagnostic fs p).isSome := by
    intro p
    by_cases h1 : fs.pathExists p <;> by_cases h2 : fs.isFile p <;>
      by_cases h3 : toLowerStr (pathSuffix p) ∈ accepted_suffixes <;>
      simp [pathViolates, path_diagnostic, h1, h2, h3, List.contains, List.elem_eq_mem]
  refine ⟨?_, hdiag, ?_⟩
  · unfold validate_integrity
    rw [validation_error_lines_eq_filterMap]
    by_cases hempty : (ps.filterMap (path_diagnostic fs)).isEmpty = true
    · rw [if_pos hempty]
      rw [List.isEmpty_iff, List.filterMap_eq_nil_iff] at hempty
      constructor
      · intro _ p hp
        rw [hdiag, hempty p hp]
        rfl
      · intro _
        rfl
    · rw [if_neg hempty]
      rw [List.isEmpty_iff, List.filterMap_eq_nil_iff] at hempty
      push_neg at hempty
      constructor
      · intro h
        exact Except.noConfusion h
      · intro hall
        obtain ⟨p, hp, hne⟩ := hempty
        have h1 := hall p hp
        rw [hdiag p] at h1
        cases hopt : path_diagnostic fs p with
        | none => exact absurd hopt hne
        | some line => exact absurd h1 (by simp [hopt])
  · intro hex
    obtain ⟨p, hp, hv⟩ := hex
    unfold validate_integrity
    rw [validation_error_lines_eq_filterMap]
    have hne : ¬ (ps.filterMap (path_diagnostic fs)).isEmpty = true := by
      rw [List.isEmpty_iff, List.filterMap_eq_nil_iff]
      intro hall
      rw [hdiag, hall p hp] at hv
      exact Bool.noConfusion hv
    rw [if_neg hne]

/-- Witness for C5: two invalid paths, one combined error listing both. -/
theorem C5_validate_integrity_aggregation_witness :
    validate_integrity fsEmpty ["bad1", "bad2"] =
      .error "Integrity validation failed:\nFile does not exist: bad1\nFile does not exist: bad2" :=
  (C5_validate_integrity_aggregation fsEmpty ["bad1", "bad2"]).2.2
    ⟨"bad1", by decide, by decide⟩
/-- The sixteen characters a hex digest may contain. -/
def hexCharset : List Char := "0123456789abcdef".toList

/-- A word prints as exactly eight hex characters. -/
theorem toHex8_length (w : Nat) : (toHex8 w).length = 8 := by
  simp [toHex8]

/-- Every character a word prints as is a hex digit. -/
theorem toHex8_mem_hexCharset (w : Nat) : ∀ c ∈ toHex8 w, c ∈ hexCharset := by
  intro c hc
  rw [toHex8] at hc
  obtain ⟨i, _, hi⟩ := List.mem_map.mp hc
  have hlt : w / 16 ^ (7 - i) % 16 < 16 := Nat.mod_lt _ (by norm_num)
  have : ∀ d < 16, hexChar d ∈ hexCharset := by decide
  exact hi ▸ this _ hlt

/-- A SHA-256 hexdigest has exactly 64 characters. -/
theorem hexdigest_length (st : Hash8) : (Hash8.hexdigest st).length = 64 := by
  show (toHex8 st.a ++ toHex8 st.b ++ toHex8 st.c ++ toHex8 st.d ++
    toHex8 st.e ++ toHex8 st.f ++ toHex8 st.g ++ toHex8 st.h).length = 64
  simp [toHex8_length]

/-- Every character of a SHA-256 hexdigest is a hex digit. -/
theorem hexdigest_mem_hexCharset (st : Hash8) :
    ∀ c ∈ (Hash8.hexdigest st).toList, c ∈ hexCharset := by
  intro c hc
  have : c ∈ toHex8 st.a ++ toHex8 st.b ++ toHex8 st.c ++ toHex8 st.d ++
      toHex8 st.e ++ toHex8 st.f ++ toHex8 st.g ++ toHex8 st.h := hc
  simp only [List.mem_append] at this
  rcases this with ((((((h | h) | h) | h) | h) | h) | h) | h <;>
    exact toHex8_mem_hexCharset _ _ h

/-- Values present in a Python dict after an insert: an old value or the
inserted one. -/
theorem dictInsert_mem (m : List (String × String)) (k v : String) :
    ∀ kv ∈ dictInsert m k v, kv ∈ m ∨ kv.2 = v := by
  intro kv hkv
  unfold dictInsert at hkv
  by_cases hany : m.any (fun kv => kv.1 == k)
  · rw [if_pos hany] at hkv
    obtain ⟨kv0, hkv0, heq⟩ := List.mem_map.mp hkv
    by_cases h0 : kv0.1 == k
    · rw [if_pos h0] at heq
      exact Or.inr (by rw [← heq])
    · rw [if_neg h0] at heq
      exact Or.inl (heq ▸ hkv0)
  · rw [if_neg hany] at hkv
    rcases List.mem_append.mp hkv with h | h
    · exact Or.inl h
    · rw [List.mem_singleton.mp h]
      exact Or.inr rfl

/-- Every digest the checksum loop adds or keeps is a 64-character hex
string. -/
theorem compute_checksums_loop_hex (fs : FS) :
    ∀ (files : List String) (acc m : List (String × String)),
      (∀ kv ∈ acc, kv.2.length = 64 ∧ ∀ c ∈ kv.2.toList, c ∈ hexCharset) →
      compute_checksums_loop fs files acc = .ok m →
      ∀ kv ∈ m, kv.2.length = 64 ∧ ∀ c ∈ kv.2.toList, c ∈ hexCharset := by
  intro files
  induction files with
  | nil =>
    intro acc m hacc hok
    unfold compute_checksums_loop at hok
    injection hok with h
    exact h ▸ hacc
  | cons p rest ih =>
    intro acc m hacc hok
    unfold compute_checksums_loop at hok
    by_cases h1 : fs.pathExists p
    · by_cases h2 : fs.isFile p
      · rw [if_neg (by simp [h1]), if_neg (by simp [h2])] at hok
        refine ih _ m ?_ hok
        intro kv hkv
        rcases dictInsert_mem _ _ _ kv hkv with h | h
        · exact hacc kv h
        · rw [h]
          exact ⟨hexdigest_length _, hexdigest_mem_hexCharset _⟩
      · rw [if_neg (by simp [h1]), if_pos (by simp [h2])] at hok
        exact Except.noConfusion hok
    · rw [if_pos (by simp [h1])] at hok
      exact Except.noConfusion hok

/-- The checksum loop depends only on each file's existence, file-ness and
byte content. -/
theorem compute_checksums_loop_deterministic (fs fs' : FS) :
    ∀ (files : List String) (acc : List (String × String)),
      (∀ p ∈ files, fs.pathExists p = fs'.pathExists p ∧
        fs.isFile p = fs'.isFile p ∧ fs.content p = fs'.content p) →
      compute_checksums_loop fs files acc = compute_checksums_loop fs' files acc := by
  intro files
  induction files with
  | nil => intro acc _; rfl
  | cons p rest ih =>
    intro acc h
    obtain ⟨he, hf, hc⟩ := h p (List.mem_cons_self p rest)
    unfold compute_checksums_loop
    rw [← he, ← hf, ← hc]
    by_cases h1 : fs.pathExists p
    · by_cases h2 : fs.isFile p
      · simp only [h1, h2]
        simp only [not_true_eq_false, if_false]
        exact ih _ (fun q hq => h q (List.mem_cons_of_mem p hq))
      · simp [h1, h2]
    · simp [h1]

/-- C8: `compute_checksums` is deterministic — two computations over
identical byte content yield identical results — and fixed-width: every
digest in a returned mapping is a 64-character string of hex digits (the
output size of SHA-256). -/
theorem C8_checksums_deterministic_fixed_width (fs fs' : FS) (files : List String)
    (h : ∀ p ∈ files, fs.pathExists p = fs'.pathExists p ∧
      fs.isFile p = fs'.isFile p ∧ fs.content p = fs'.content p) :
    compute_checksums fs files = compute_checksums fs' files ∧
    ∀ m, compute_checksums fs files = .ok m →
      ∀ kv ∈ m, kv.2.length = 64 ∧ ∀ c ∈ kv.2.toList, c ∈ hexCharset :=
  ⟨compute_checksums_loop_deterministic fs fs' files [] h,
   fun m hok => compute_checksums_loop_hex fs files [] m (by simp) hok⟩

/-- Witness for C8: the digest of the two-byte file of `fs1`. -/
theorem C8_checksums_witness :
    (checksum_stream [104, 105]).length = 64 ∧
    ∀ c ∈ (checksum_stream [104, 105]).toList, c ∈ hexCharset :=
  (C8_checksums_deterministic_fixed_width fs1 fs1 ["data/features/a.h5"]
      (by decide)).2
    [("data/features/a.h5", checksum_stream [104, 105])] rfl
    ("data/features/a.h5", checksum_stream [104, 105]) (List.mem_singleton.mpr rfl)
/-- Inserting into a list permutes consing onto it. -/
theorem insertSorted_perm (le : α → α → Bool) (a : α) (l : List α) :
    (insertSorted le a l).Perm (a :: l) := by
  induction l with
  | nil => exact List.Perm.refl _
  | cons b bs ih =>
    by_cases h : le a b
    · simp only [insertSorted, if_pos h]
      exact List.Perm.refl _
    · simp only [insertSorted, if_neg h]
      exact (ih.cons b).trans (List.Perm.swap a b bs)

/-- Inserting into a sorted list keeps it sorted, for a total transitive
boolean comparison. -/
theorem insertSorted_pairwise (le : α → α → Bool)
    (htot : ∀ x y, (le x y || le y x) = true)
    (htrans : ∀ x y z, le x y = true → le y z = true → le x z = true)
    (a : α) (l : List α) (hl : l.Pairwise (fun x y => le x y = true)) :
    (insertSorted le a l).Pairwise (fun x y => le x y = true) := by
  induction l with
  | nil => simp [insertSorted]
  | cons b bs ih =>
    rcases List.pairwise_cons.mp hl with ⟨hb, hbs⟩
    by_cases h : le a b
    · simp only [insertSorted, if_pos h]
      refine List.pairwise_cons.mpr ⟨?_, hl⟩
      intro x hx
      rcases List.mem_cons.mp hx with rfl | hx
      · exact h
      · exact htrans a b x h (hb x hx)
    · simp only [insertSorted, if_neg h]
      refine List.pairwise_cons.mpr ⟨?_, ih hbs⟩
      intro x hx
      rcases List.mem_cons.mp ((insertSorted_perm le a bs).mem_iff.mp hx) with hxa | hx
      · rw [hxa]
        have h2 := htot a b
        rw [Bool.or_eq_true] at h2
        exact h2.resolve_left h
      · exact hb x hx

/-- The ORDER BY sort returns a permutation of its input. -/
theorem sortBy_perm (le : α → α → Bool) (l : List α) : (sortBy le l).Perm l := by
  induction l with
  | nil => exact List.Perm.refl _
  | cons a as ih => exact (insertSorted_perm le a (sortBy le as)).trans (ih.cons a)

/-- The ORDER BY sort returns a sorted list, for a total transitive boolean
comparison. -/
theorem sortBy_pairwise (le : α → α → Bool)
    (htot : ∀ x y, (le x y || le y x) = true)
    (htrans : ∀ x y z, le x y = true → le y z = true → le x z = true)
    (l : List α) : (sortBy le l).Pairwise (fun x y => le x y = true) := by
  induction l with
  | nil => simp [sortBy]
  | cons a as ih => exact insertSorted_pairwise le htot htrans a _ ih

/-- The repository ordering key is transitive. -/
theorem sylLE_trans (a b c : Syllable) (hab : sylLE a b = true)
    (hbc : sylLE b c = true) : sylLE a c = true := by
  simp only [sylLE, decide_eq_true_eq] at *
  rcases hab with h1 | ⟨h1, h1'⟩ <;> rcases hbc with h2 | ⟨h2, h2'⟩
  · exact Or.inl (h1.trans h2)
  · exact Or.inl (h2 ▸ h1)
  · exact Or.inl (h1 ▸ h2)
  · exact Or.inr ⟨h1.trans h2, le_trans h1' h2'⟩

/-- The repository ordering key is total. -/
theorem sylLE_total (a b : Syllable) : (sylLE a b || sylLE b a) = true := by
  simp only [sylLE, Bool.or_eq_true, decide_eq_true_eq]
  rcases lt_trichotomy a.start_time b.start_time with h | h | h
  · exact Or.inl (Or.inl h)
  · rcases le_total a.id b.id with h' | h'
    · exact Or.inl (Or.inr ⟨h, h'⟩)
    · exact Or.inr (Or.inr ⟨h.symm, h'⟩)
  · exact Or.inr (Or.inl h)

/-- C7: for every database state and every chain of filter calls, in any
order and multiplicity, `execute` returns a result ordered by start time
and then by id, and that result is a permutation of the rows matching the
chained filters — the final ordering is applied at execute time whatever
the chain was. -/
theorem C7_execute_deterministic_ordering (db : DB) (calls : List QueryDSL.FilterCall) :
    List.Pairwise (fun s t => sylLE s t = true)
      (QueryDSL.execute db (QueryDSL.applyCalls calls)) ∧
    (QueryDSL.execute db (QueryDSL.applyCalls calls)).Perm
      (QueryDSL.matchingSyllables db (QueryDSL.applyCalls calls)) :=
  ⟨sortBy_pairwise sylLE sylLE_total sylLE_trans _, sortBy_perm sylLE _⟩

/-- Membership in the matching rows of a join-free builder state: the
single unjoined row per syllable must pass every accumulated predicate. -/
theorem mem_matchingSyllables_noJoin (db : DB) (conds : List QueryDSL.Cond)
    (s : Syllable) :
    s ∈ QueryDSL.matchingSyllables db
      { joinAnnotation := false, joinEmbedding := false, joinRecording := false
        conds := conds } ↔
      s ∈ db.syllables ∧
        conds.all (QueryDSL.evalCond { syl := s, ann := none, emb := none, rcd := none }) = true := by
  unfold QueryDSL.matchingSyllables QueryDSL.genRows QueryDSL.rowsFor
  simp only [QueryDSL.annChoices, QueryDSL.embChoices, QueryDSL.recChoices,
    if_neg Bool.false_ne_true, List.flatMap_cons, List.flatMap_nil,
    List.map_cons, List.map_nil, List.append_nil, List.mem_map,
    List.mem_filter, List.mem_flatMap, List.mem_singleton]
  constructor
  · rintro ⟨r, ⟨⟨t, ht, hteq⟩, hall⟩, hsyl⟩
    subst hteq
    cases hsyl
    exact ⟨ht, hall⟩
  · intro ⟨hs, hall⟩
    exact ⟨{ syl := s, ann := none, emb := none, rcd := none }, ⟨⟨s, hs, rfl⟩, hall⟩, rfl⟩

/-- C2 counterexample: `SyllableRepository.filter_by_duration` does not
accept an omitted max bound — a call passing only a min duration is a
`TypeError`, not the "at least min" query the claim describes. -/
theorem C2_counterexample :
    SyllableRepository.filter_by_duration_call dbC2 [3/20] =
      .error "TypeError: filter_by_duration() missing 1 required positional argument: max_duration" ∧
    SyllableRepository.filter_by_duration_call dbC2 [3/20] ≠ .ok [sylC2] := by
  refine ⟨rfl, ?_⟩
  intro h
  rw [show SyllableRepository.filter_by_duration_call dbC2 [3/20] =
    .error "TypeError: filter_by_duration() missing 1 required positional argument: max_duration"
    from rfl] at h
  exact Except.noConfusion h

/-- C2 (amended): `SyllableRepository.filter_by_duration` requires both
bounds and filters inclusively on duration = end − start; the omitted-max
form belongs to `QueryDSL.filter_by_duration`, where an absent max means
"duration at least min"; and the boundary example holds: the syllable with
start 1.0, end 1.2 is returned by bounds (0.15, 1.0) and excluded by
bounds (0.0, 0.1). -/
theorem C2_filter_by_duration_semantics :
    (∀ (db : DB) (mn mx : ℚ) (s : Syllable),
      s ∈ SyllableRepository.filter_by_duration db mn mx ↔
        s ∈ db.syllables ∧ mn ≤ SyllableRepository.duration_expr s ∧
          SyllableRepository.duration_expr s ≤ mx) ∧
    (∀ (db : DB) (mn : ℚ) (s : Syllable),
      s ∈ QueryDSL.execute db (QueryDSL.applyCalls [.duration mn none]) ↔
        s ∈ db.syllables ∧ mn ≤ SyllableRepository.duration_expr s) ∧
    SyllableRepository.filter_by_duration dbC2 (3/20) 1 = [sylC2] ∧
    SyllableRepository.filter_by_duration dbC2 0 (1/10) = [] := by
  have hdur : SyllableRepository.duration_expr sylC2 = 1/5 := by
    rw [SyllableRepository.duration_expr, show sylC2.end_time = 6/5 from rfl,
      show sylC2.start_time = 1 from rfl]
    norm_num
  refine ⟨?_, ?_, ?_, ?_⟩
  · intro db mn mx s
    rw [SyllableRepository.filter_by_duration,
      (sortBy_perm sylLE _).mem_iff, List.mem_filter]
    simp
  · intro db mn s
    rw [QueryDSL.execute, (sortBy_perm sylLE _).mem_iff]
    exact (mem_matchingSyllables_noJoin db [QueryDSL.Cond.durGe mn] s).trans
      (by simp [QueryDSL.evalCond])
  · rw [SyllableRepository.filter_by_duration,
      show dbC2.syllables = [sylC2] from rfl,
      List.filter_cons_of_pos (by rw [decide_eq_true_eq, hdur]; norm_num),
      List.filter_nil]
    rfl
  · rw [SyllableRepository.filter_by_duration,
      show dbC2.syllables = [sylC2] from rfl,
      List.filter_cons_of_neg (by rw [decide_eq_true_eq, hdur]; norm_num),
      List.filter_nil]
    rfl

/-- Witness for C2's amended statement at the boundary example. -/
theorem C2_filter_by_duration_semantics_witness :
    sylC2 ∈ SyllableRepository.filter_by_duration dbC2 (3/20) 1 :=
  (C2_filter_by_duration_semantics.1 dbC2 (3/20) 1 sylC2).mpr
    ⟨List.mem_singleton.mpr rfl,
     by rw [show SyllableRepository.duration_expr sylC2 = 1/5 from by
        rw [SyllableRepository.duration_expr, show sylC2.end_time = 6/5 from rfl,
          show sylC2.start_time = 1 from rfl]; norm_num]; norm_num,
     by rw [show SyllableRepository.duration_expr sylC2 = 1/5 from by
        rw [SyllableRepository.duration_expr, show sylC2.end_time = 6/5 from rfl,
          show sylC2.start_time = 1 from rfl]; norm_num]; norm_num⟩
/-- The number of syllable rows one file contributes on a successful pass
(its zipped onset/offset pairs). -/
def pairCount (fs : FS) (p : String) : Nat :=
  match extract_hdf5_metadata fs p with
  | .ok md => (md.onsets.zip md.offsets).length
  | .error _ => 0

/-- One file's batch contribution has one dict per onset/offset pair. -/
theorem mkSyllableSpecs_length (rid : Nat) (p : String) (md : H5Meta) :
    (mkSyllableSpecs rid p md).length = (md.onsets.zip md.offsets).length := by
  simp [mkSyllableSpecs]

/-- `pairCount` at a file whose extraction succeeds. -/
theorem pairCount_eq {fs : FS} {p : String} {md : H5Meta}
    (hex : extract_hdf5_metadata fs p = .ok md) :
    pairCount fs p = (md.onsets.zip md.offsets).length := by
  rw [pairCount, hex]

/-- Structure of a successful pass of the population loop started on a
session with empty staging: staging stays empty, the syllable table and its
counter are untouched, recordings only get appended, every processed path
ends up present, path-uniqueness of the recordings is preserved, and the
batch grows by exactly the files' pair counts. -/
theorem populate_loop_ok_spec (fs : FS) (cks : List (String × String)) :
    ∀ (files : List String) (s : Sess) (batch : List SyllableSpec)
      (s' : Sess) (batch' : List SyllableSpec),
      populate_loop fs cks files s batch = .ok (s', batch') →
      s.stagedRecs = [] → s.stagedSylls = [] →
      s'.stagedRecs = [] ∧ s'.stagedSylls = [] ∧
      s'.db.syllables = s.db.syllables ∧
      s'.db.nextSyllableId = s.db.nextSyllableId ∧
      (∃ nr : List Recording, s'.db.recordings = s.db.recordings ++ nr) ∧
      (∀ p ∈ files, ∃ r ∈ s'.db.recordings, r.file_path = p) ∧
      (s.db.recordings.Pairwise (fun r r' => r.file_path ≠ r'.file_path) →
        s'.db.recordings.Pairwise (fun r r' => r.file_path ≠ r'.file_path)) ∧
      batch'.length = batch.length + (files.map (pairCount fs)).sum := by
  intro files
  induction files with
  | nil =>
    intro s batch s' batch' hok hr hs
    rw [populate_loop] at hok
    injection hok with hpair
    have hs' : s' = s := (congrArg Prod.fst hpair).symm
    have hb' : batch' = batch := (congrArg Prod.snd hpair).symm
    subst hs'
    subst hb'
    exact ⟨hr, hs, rfl, rfl, ⟨[], (List.append_nil _).symm⟩, by simp,
      fun h => h, by simp⟩
  | cons p rest ih =>
    intro s batch s' batch' hok hr hs
    rw [populate_loop] at hok
    cases hex : extract_hdf5_metadata fs p with
    | error e =>
      rw [hex] at hok
      exact Except.noConfusion hok
    | ok md =>
      rw [hex] at hok
      cases hck : dictGet cks p with
      | none =>
        rw [hck] at hok
        exact Except.noConfusion hok
      | some ck =>
        rw [hck] at hok
        cases hgb : RecordingRepository.get_by_path s.db p with
        | some r =>
          rw [hgb] at hok
          obtain ⟨c1, c2, c3, c4, ⟨nr, c5⟩, c6, c7, c8⟩ := ih s _ s' batch' hok hr hs
          have hrmem : r ∈ s.db.recordings := List.mem_of_find?_eq_some hgb
          have hrp : r.file_path = p := by
            have := List.find?_some hgb
            simpa using this
          refine ⟨c1, c2, c3, c4, ⟨nr, c5⟩, ?_, c7, ?_⟩
          · intro q hq
            rcases List.mem_cons.mp hq with hqp | hq'
            · refine ⟨r, ?_, by rw [hrp, hqp]⟩
              rw [c5]
              exact List.mem_append_left _ hrmem
            · exact c6 q hq'
          · rw [c8, List.length_append, mkSyllableSpecs_length,
              List.map_cons, List.sum_cons, pairCount_eq hex]
            omega
        | none =>
          rw [hgb] at hok
          have hfind : ∀ t ∈ s.db.recordings, ¬ (t.file_path == p) = true := by
            have : s.db.recordings.find? (fun t => t.file_path == p) = none := hgb
            exact List.find?_eq_none.mp this
          obtain ⟨⟨recs, syls, embs, anns, nid, sid⟩, srecs, ssyls, fl⟩ := s
          dsimp only at hr hs hfind hok
          subst hr
          subst hs
          simp only [RecordingRepository.create, Sess.flush, List.nil_append,
            List.enum_cons, List.enumFrom_nil, List.map_cons, List.map_nil,
            List.length_cons, List.length_nil, List.enum_nil, List.append_nil,
            Nat.add_zero] at hok
          obtain ⟨c1, c2, c3, c4, ⟨nr, c5⟩, c6, c7, c8⟩ :=
            ih _ _ s' batch' hok rfl rfl
          refine ⟨c1, c2, c3, c4, ?_, ?_, ?_, ?_⟩
          · exact ⟨Recording.ofSpec nid
              { file_path := p, checksum_sha256 := ck
                meta_file_type := some "hdf5_spectrogram"
                meta_num_syllables := some md.num_syllables } :: nr,
              by rw [c5, List.append_assoc, List.singleton_append]⟩
          · intro q hq
            rcases List.mem_cons.mp hq with hqp | hq'
            · refine ⟨Recording.ofSpec nid
                { file_path := p, checksum_sha256 := ck
                  meta_file_type := some "hdf5_spectrogram"
                  meta_num_syllables := some md.num_syllables }, ?_, hqp ▸ rfl⟩
              rw [c5]
              exact List.mem_append_left _ (List.mem_append_right _ (List.mem_singleton.mpr rfl))
            · exact c6 q hq'
          · intro hpw
            apply c7
            rw [List.pairwise_append]
            refine ⟨hpw, List.pairwise_singleton _ _, ?_⟩
            intro a ha b hb
            rw [List.mem_singleton.mp hb]
            intro hcontra
            exact hfind a ha (by simp [Recording.ofSpec] at hcontra; simp [hcontra])
          · rw [c8, List.length_append, mkSyllableSpecs_length,
              List.map_cons, List.sum_cons, pairCount_eq hex]
            omega

/-- When every path of the batch already has a Recording, a successful pass
of the population loop leaves the session untouched (it only reuses the
existing identities). -/
theorem populate_loop_all_present (fs : FS) (cks : List (String × String)) :
    ∀ (files : List String) (s : Sess) (batch : List SyllableSpec)
      (s' : Sess) (batch' : List SyllableSpec),
      (∀ p ∈ files, ∃ r ∈ s.db.recordings, r.file_path = p) →
      populate_loop fs cks files s batch = .ok (s', batch') →
      s' = s := by
  intro files
  induction files with
  | nil =>
    intro s batch s' batch' _ hok
    rw [populate_loop] at hok
    injection hok with hpair
    exact (congrArg Prod.fst hpair).symm
  | cons p rest ih =>
    intro s batch s' batch' hall hok
    rw [populate_loop] at hok
    cases hex : extract_hdf5_metadata fs p with
    | error e =>
      rw [hex] at hok
      exact Except.noConfusion hok
    | ok md =>
      rw [hex] at hok
      cases hck : dictGet cks p with
      | none =>
        rw [hck] at hok
        exact Except.noConfusion hok
      | some ck =>
        rw [hck] at hok
        cases hgb : RecordingRepository.get_by_path s.db p with
        | none =>
          obtain ⟨r, hr, hrp⟩ := hall p (List.mem_cons_self p rest)
          have hnone : s.db.recordings.find? (fun t => t.file_path == p) = none := hgb
          rw [List.find?_eq_none] at hnone
          exact absurd (by simp [hrp] : (r.file_path == p) = true) (hnone r hr)
        | some r =>
          rw [hgb] at hok
          exact ih s _ s' batch' (fun q hq => hall q (List.mem_cons_of_mem p hq)) hok
/-- A unique-path recording table holding the path has exactly one filtered
match for it. -/
theorem filter_path_count_one (l : List Recording) (p : String)
    (hmem : ∃ r ∈ l, r.file_path = p)
    (hu : l.Pairwise (fun r r' => r.file_path ≠ r'.file_path)) :
    (l.filter (fun r => r.file_path == p)).length = 1 := by
  induction l with
  | nil =>
    obtain ⟨r, hr, _⟩ := hmem
    exact absurd hr (List.not_mem_nil r)
  | cons a as ih =>
    rcases List.pairwise_cons.mp hu with ⟨ha, has⟩
    by_cases hap : a.file_path = p
    · rw [List.filter_cons_of_pos (by simp [hap])]
      have hnil : as.filter (fun r => r.file_path == p) = [] := by
        rw [List.filter_eq_nil_iff]
        intro r hr
        simp only [beq_iff_eq, Bool.not_eq_true, decide_eq_false_iff_not]
        intro hrp
        exact ha r hr (hap.trans hrp.symm)
      rw [hnil]
      rfl
    · rw [List.filter_cons_of_neg (by simp [hap])]
      apply ih
      · obtain ⟨r, hr, hrp⟩ := hmem
        rcases List.mem_cons.mp hr with hra | hr'
        · exact absurd (hra ▸ hrp) hap
        · exact ⟨r, hr', hrp⟩
      · exact has

/-- What a successful `populate_database` commits: recordings are only
appended; every batch path ends with a Recording; path-uniqueness is
preserved; the syllable table grows by exactly the files' pair counts; and
when every path already had a Recording, the recording table is unchanged. -/
theorem populate_database_committed (fs : FS) (files : List String)
    (cks : List (String × String)) (db : DB)
    (h : (populate_database fs files cks db).err = none) :
    (∃ nr, (populate_database fs files cks db).committed.recordings =
      db.recordings ++ nr) ∧
    (∀ p ∈ files, ∃ r ∈ (populate_database fs files cks db).committed.recordings,
      r.file_path = p) ∧
    (db.recordings.Pairwise (fun r r' => r.file_path ≠ r'.file_path) →
      (populate_database fs files cks db).committed.recordings.Pairwise
        (fun r r' => r.file_path ≠ r'.file_path)) ∧
    (populate_database fs files cks db).committed.syllables.length =
      db.syllables.length + (files.map (pairCount fs)).sum ∧
    ((∀ p ∈ files, ∃ r ∈ db.recordings, r.file_path = p) →
      (populate_database fs files cks db).committed.recordings = db.recordings) := by
  unfold populate_database get_session at h ⊢
  cases hw : populate_work fs files cks (Sess.init db) with
  | error e =>
    rw [hw] at h
    simp at h
  | ok sf =>
    dsimp only at h ⊢
    unfold populate_work at hw
    cases hl : populate_loop fs cks files (Sess.init db) [] with
    | error e =>
      rw [hl] at hw
      exact Except.noConfusion hw
    | ok pr =>
      rw [hl] at hw
      obtain ⟨sl, batch⟩ := pr
      injection hw with hw1
      obtain ⟨c1, c2, c3, c4, ⟨nr, c5⟩, c6, c7, c8⟩ :=
        populate_loop_ok_spec fs cks files (Sess.init db) [] sl batch hl rfl rfl
      subst hw1
      obtain ⟨⟨lrecs, lsyls, lembs, lanns, lnid, lsid⟩, lsrecs, lssyls, lfl⟩ := sl
      dsimp only at c1 c2 c3 c4 c5 c6 c7
      subst c1
      subst c2
      simp only [SyllableRepository.bulk_create, stage_foldl_eq, Sess.commit,
        Sess.flush, List.nil_append, List.enum_nil, List.map_nil,
        List.append_nil, List.length_nil, Nat.add_zero]
      refine ⟨⟨nr, c5⟩, ?_, c7, ?_, ?_⟩
      · intro p hp
        obtain ⟨r, hr, hrp⟩ := c6 p hp
        exact ⟨r, hr, hrp⟩
      · rw [List.length_append, c3, List.length_map, List.enum_length, c8]
        simp [Sess.init]
      · intro hall
        have hid := populate_loop_all_present fs cks files (Sess.init db) []
          ⟨⟨lrecs, lsyls, lembs, lanns, lnid, lsid⟩, [], [], lfl⟩ batch hall hl
        exact congrArg (fun s : Sess => s.db.recordings) hid
/-- C6: `populate_database` is idempotent on Recordings — after a
successful run, a second successful run over the same files creates no new
Recording row (it reuses existing identities), so each batch path ends with
exactly one Recording; Syllable inserts however are re-attempted, the
second run appending as many syllable rows again as the first did. -/
theorem C6_populate_idempotent_on_recordings (fs : FS) (files : List String)
    (cks : List (String × String)) (db0 : DB)
    (huniq : db0.recordings.Pairwise (fun r r' => r.file_path ≠ r'.file_path))
    (h1 : (populate_database fs files cks db0).err = none)
    (h2 : (populate_database fs files cks
      (populate_database fs files cks db0).committed).err = none) :
    (populate_database fs files cks
      (populate_database fs files cks db0).committed).committed.recordings =
      (populate_database fs files cks db0).committed.recordings ∧
    (∀ p ∈ files,
      ((populate_database fs files cks
        (populate_database fs files cks db0).committed).committed.recordings.filter
          (fun r => r.file_path == p)).length = 1) ∧
    (∃ k,
      (populate_database fs files cks db0).committed.syllables.length =
        db0.syllables.length + k ∧
      (populate_database fs files cks
        (populate_database fs files cks db0).committed).committed.syllables.length =
        (populate_database fs files cks db0).committed.syllables.length + k) := by
  obtain ⟨⟨nr1, e1⟩, pres1, pw1, len1, _⟩ := populate_database_committed fs files cks db0 h1
  obtain ⟨_, _, _, len2, allp2⟩ := populate_database_committed fs files cks
    (populate_database fs files cks db0).committed h2
  have hrec2 := allp2 pres1
  refine ⟨hrec2, ?_, ⟨(files.map (pairCount fs)).sum, len1, len2⟩⟩
  intro p hp
  rw [hrec2]
  exact filter_path_count_one _ p (pres1 p hp) (pw1 huniq)

/-- Witness for C6: two successful runs over the same single-file batch
leave the recording table of the first run unchanged. -/
theorem C6_populate_idempotent_witness :
    (populate_database fs1 ["data/features/a.h5"]
      [("data/features/a.h5", checksum_stream [104, 105])]
      (populate_database fs1 ["data/features/a.h5"]
        [("data/features/a.h5", checksum_stream [104, 105])] dbEmpty).committed).committed.recordings =
      (populate_database fs1 ["data/features/a.h5"]
        [("data/features/a.h5", checksum_stream [104, 105])] dbEmpty).committed.recordings :=
  (C6_populate_idempotent_on_recordings fs1 ["data/features/a.h5"]
    [("data/features/a.h5", checksum_stream [104, 105])] dbEmpty
    List.Pairwise.nil (by rfl) (by rfl)).1
/-- C1 counterexample: a run over an empty discovery set completes
successfully, but its summary carries only status, indexed file count and
error list — the total segment count and the checksums-computed count are
absent, contrary to the claim that every successful summary contains all
five. -/
theorem C1_counterexample :
    run_full_indexing fsEmpty dbEmpty "data/features" none =
      .ok ([("status", .str "completed"), ("indexed_files", .nat 0),
            ("errors", .strList [])], dbEmpty) ∧
    Summary.get [("status", SVal.str "completed"), ("indexed_files", SVal.nat 0),
      ("errors", SVal.strList [])] "total_syllables" = none ∧
    Summary.get [("status", SVal.str "completed"), ("indexed_files", SVal.nat 0),
      ("errors", SVal.strList [])] "checksums_computed" = none :=
  ⟨rfl, rfl, rfl⟩

/-- C1 (amended): every successful `run_full_indexing` summary carries
status completed, the indexed file count and an empty error list; the total
segment count and the checksums-computed count are present whenever the
discovery set was non-empty (an empty discovery yields a zero-count success
summary without those two keys). -/
theorem C1_run_full_indexing_summary (fs : FS) (db : DB) (fdir : String)
    (bd : Option String) (sm : Summary) (db' : DB)
    (h : run_full_indexing fs db fdir bd = .ok (sm, db')) :
    Summary.get sm "status" = some (.str "completed") ∧
    Summary.get sm "indexed_files" =
      some (.nat (scan_files fs (bd.getD fdir)).length) ∧
    Summary.get sm "errors" = some (.strList []) ∧
    ((scan_files fs (bd.getD fdir)).isEmpty = false →
      (∃ n, Summary.get sm "total_syllables" = some (.nat n)) ∧
      (∃ n, Summary.get sm "checksums_computed" = some (.nat n))) := by
  rw [run_full_indexing] at h
  by_cases hemp : (scan_files fs (bd.getD fdir)).isEmpty = true
  · rw [if_pos hemp] at h
    injection h with hpair
    have hsm : sm = [("status", .str "completed"), ("indexed_files", .nat 0),
        ("errors", .strList [])] := (congrArg Prod.fst hpair).symm
    subst hsm
    have hlen : (scan_files fs (bd.getD fdir)).length = 0 := by
      rw [List.isEmpty_iff] at hemp
      rw [hemp]
      rfl
    refine ⟨rfl, ?_, rfl, ?_⟩
    · rw [hlen]
      rfl
    · intro hfalse
      rw [hemp] at hfalse
      exact Bool.noConfusion hfalse
  · rw [if_neg hemp] at h
    cases hval : validate_integrity fs (scan_files fs (bd.getD fdir)) with
    | error e =>
      rw [hval] at h
      exact Except.noConfusion h
    | ok b =>
      rw [hval] at h
      dsimp only at h
      cases hcks : compute_checksums fs (scan_files fs (bd.getD fdir)) with
      | error e =>
        rw [hcks] at h
        exact Except.noConfusion h
      | ok cks =>
        rw [hcks] at h
        dsimp only at h
        cases hout : (populate_database fs (scan_files fs (bd.getD fdir)) cks db).err with
        | some e =>
          rw [hout] at h
          exact Except.noConfusion h
        | none =>
          rw [hout] at h
          cases htot : totalSyllables fs (scan_files fs (bd.getD fdir)) with
          | error e =>
            rw [htot] at h
            exact Except.noConfusion h
          | ok total =>
            rw [htot] at h
            injection h with hpair
            have hsm : sm = [("status", .str "completed"),
                ("indexed_files", .nat (scan_files fs (bd.getD fdir)).length),
                ("total_syllables", .nat total),
                ("checksums_computed", .nat cks.length),
                ("errors", .strList [])] := (congrArg Prod.fst hpair).symm
            subst hsm
            exact ⟨rfl, rfl, rfl, fun _ => ⟨⟨total, rfl⟩, ⟨cks.length, rfl⟩⟩⟩

/-- Witness for C1's amended statement: a successful run over a non-empty
discovery set, whose summary carries all five keys. -/
theorem C1_run_full_indexing_summary_witness :
    Summary.get fs1summary "status" = some (.str "completed") ∧
    Summary.get fs1summary "indexed_files" =
      some (.nat (scan_files fs1 ((none : Option String).getD "data/features")).length) ∧
    Summary.get fs1summary "errors" = some (.strList []) ∧
    ((scan_files fs1 ((none : Option String).getD "data/features")).isEmpty = false →
      (∃ n, Summary.get fs1summary "total_syllables" = some (.nat n)) ∧
      (∃ n, Summary.get fs1summary "checksums_computed" = some (.nat n))) :=
  C1_run_full_indexing_summary fs1 dbEmpty "data/features" none fs1summary fs1db (by rfl)
